import Mathlib

/-!
Verification of `agilerl/utils/utils.py`: the episode score calculator
(`calculate_vectorized_scores`), the population factory (`create_population`)
and `get_env_defined_actions`, shallowly embedded in Lean.

Rewards are modelled as exact integers (`Int`); numpy float arithmetic on a
row reduces to summation of the row's entries, which the model keeps exact.
A 2-D array is a list of rows; both input arrays have identical shape in
every claim considered, so the row pairing is by position.
-/

namespace AgileRL

/-- Sum of the Python slice `r[a:b]` of a row. -/
def sliceSum (r : List Int) (a b : Nat) : Int :=
  ((r.drop a).take (b - a)).sum

/-- `np.where(terminations[env_index] == 1)[0]`: the ascending list of
indices of the row whose entry equals 1. -/
def terminationIndices (t : List Int) : List Nat :=
  (List.range t.length).filter (fun i => t.getD i 0 == 1)

/-- The inner `for termination_index in termination_indices` loop of
`calculate_vectorized_scores`: walks the termination indices from
`start_index`, appending `np.sum(rewards[env_index, start_index :
termination_index + 1])` for each window; breaks after the first window when
`only_first_episode` is true, otherwise advances `start_index` to
`termination_index + 1`.  Returns the appended scores together with the
final value of `start_index`. -/
def segmentLoop (r : List Int) (onlyFirst : Bool) : Nat → List Nat → List Int × Nat
  | start, [] => ([], start)
  | start, ti :: rest =>
    let s := sliceSum r start (ti + 1)
    if onlyFirst then ([s], start)
    else
      let p := segmentLoop r onlyFirst (ti + 1) rest
      (s :: p.1, p.2)

/-- The body of the `for env_index in range(num_envs)` loop of
`calculate_vectorized_scores`, for one row pair: if the row has no
termination indices the whole row sum is the single score; otherwise the
segment loop runs from `start_index = 0`, and afterwards a trailing partial
score `np.sum(rewards[env_index, start_index:])` is appended when
`only_first_episode` is false, `include_unterminated` is true and
`start_index < len(rewards[env_index])`. -/
def rowScores (r t : List Int) (includeUnterminated onlyFirst : Bool) : List Int :=
  let tis := terminationIndices t
  if tis = [] then [r.sum]
  else
    let p := segmentLoop r onlyFirst 0 tis
    if !onlyFirst && includeUnterminated && decide (p.2 < r.length) then
      p.1 ++ [sliceSum r p.2 r.length]
    else
      p.1

/-- `calculate_vectorized_scores(rewards, terminations, include_unterminated,
only_first_episode)`: rows are processed independently in row order and the
per-row score lists are concatenated (environment-major output). -/
def calculate_vectorized_scores (rewards terminations : List (List Int))
    (includeUnterminated : Bool := false) (onlyFirst : Bool := true) : List Int :=
  ((rewards.zip terminations).map
    (fun p => rowScores p.1 p.2 includeUnterminated onlyFirst)).flatten

/-! Spec-side formulation of the section-4.3 segmentation algorithm, written
from the spec's words, to be compared with the source embedding above. -/

/-- Spec 4.3, step 3: the episode windows of a row, as pairs
`(termination_index, start)`: window `k` spans `[start_k, ti_k]` with
`start_0 = 0` and `start_(k+1) = ti_k + 1`. -/
def specWindows (start : Nat) (tis : List Nat) : List (Nat × Nat) :=
  tis.zip (start :: tis.map (· + 1))

/-- Spec 4.3, one row: if no termination index exists the row sum is the
single score; if `only_first_episode` is true only the first window's sum is
kept; otherwise every window's sum is kept and, when `include_unterminated`
is true and the position after the last termination index is still inside
the row, the trailing partial sum is appended. -/
def specRowScores (r t : List Int) (includeUnterminated onlyFirst : Bool) : List Int :=
  match terminationIndices t with
  | [] => [r.sum]
  | t0 :: rest =>
    if onlyFirst then [sliceSum r 0 (t0 + 1)]
    else
      let scores := (specWindows 0 (t0 :: rest)).map (fun w => sliceSum r w.2 (w.1 + 1))
      let lastStart := (t0 :: rest).getLastD 0 + 1
      scores ++
        (if includeUnterminated && decide (lastStart < r.length) then
          [sliceSum r lastStart r.length]
        else [])

/-- Spec 4.3, whole batch: rows processed independently in row order,
environment-major concatenation of the per-row score lists. -/
def specScores (rewards terminations : List (List Int))
    (includeUnterminated onlyFirst : Bool) : List Int :=
  ((rewards.zip terminations).map
    (fun p => specRowScores p.1 p.2 includeUnterminated onlyFirst)).flatten

/-!
The population factory `create_population`.  The agent classes (DQN, DDPG,
...) are external collaborators: each constructor call is recorded as an
`AgentCall` value holding the arguments this file forwards to it.  Spaces,
the network config, the accelerator and the hyperparameter values are
opaque to `utils.py` and are modelled by opaque tokens (`Nat` / `Int`).
The `actor_network` / `critic_network` / `torch_compiler` pass-throughs are
opaque constants forwarded verbatim and are not recorded.  A Python
`KeyError` raised by `INIT_HP[...]` is modelled as `Except.error key`.
-/

/-- One constructor invocation performed by the factory: which agent class
was called, the `index` it was given, the forwarded arguments, and the
hyperparameter `(key, value)` pairs read from `INIT_HP` in source order.
`one_hot := none` (resp. `vect_noise_dim := none`) records that the keyword
argument was not passed to this constructor. -/
structure AgentCall where
  ctor : String
  index : Nat
  obs : Nat
  act : Nat
  one_hot : Option Bool
  net_config : Option Nat
  vect_noise_dim : Option Nat
  device : String
  accelerator : Option Nat
  hp : List (String × Int)
  deriving DecidableEq

/-- `INIT_HP["KEY"]`: mapping lookup raising `KeyError` (modelled as
`Except.error key`) when the key is absent. -/
def lookupHP (m : List (String × Int)) (k : String) : Except String Int :=
  match m.lookup k with
  | some v => .ok v
  | none => .error k

/-- The hyperparameter lookups of one constructor call, in source order; the
first missing key aborts the call, as in Python. -/
def readKeys (m : List (String × Int)) : List String → Except String (List (String × Int))
  | [] => .ok []
  | k :: ks =>
    match lookupHP m k with
    | .error e => .error e
    | .ok v =>
      match readKeys m ks with
      | .error e => .error e
      | .ok rest => .ok ((k, v) :: rest)

/-- One `agent = AlgoClass(...)` call: evaluate the hyperparameter lookups,
then build the recorded constructor call. -/
def buildAgent (m : List (String × Int)) (ks : List String)
    (f : List (String × Int) → AgentCall) : Except String AgentCall :=
  match readKeys m ks with
  | .error e => .error e
  | .ok hp => .ok (f hp)

/-- `for idx in range(population_size): ... population.append(agent)`:
construct the slots in order, propagating the first constructor failure. -/
def seqBuild (mk : Nat → Except String AgentCall) : List Nat → Except String (List AgentCall)
  | [] => .ok []
  | i :: is =>
    match mk i with
    | .error e => .error e
    | .ok a =>
      match seqBuild mk is with
      | .error e => .error e
      | .ok rest => .ok (a :: rest)

/-- `create_population(algo, observation_space, action_space, one_hot,
net_config, INIT_HP, ..., population_size, num_envs, device, accelerator,
...)`: the `if algo == ... / elif ... / (fall through)` dispatch of
`utils.py`, returning the recorded constructor calls (or the first
`KeyError`).  An unrecognized `algo` falls through every branch and the
initial empty `population` list is returned. -/
def create_population (algo : String) (observation_space action_space : Nat)
    (one_hot : Bool) (net_config : Option Nat) (INIT_HP : List (String × Int))
    (population_size : Nat := 1) (num_envs : Nat := 1) (device : String := "cpu")
    (accelerator : Option Nat := none) : Except String (List AgentCall) :=
  if algo = "DQN" then
    seqBuild (fun idx => buildAgent INIT_HP
      ["BATCH_SIZE", "LR", "LEARN_STEP", "GAMMA", "TAU", "DOUBLE"]
      (fun hp =>
        { ctor := "DQN", index := idx, obs := observation_space, act := action_space,
          one_hot := some one_hot, net_config := net_config, vect_noise_dim := none,
          device := device, accelerator := accelerator, hp := hp }))
      (List.range population_size)
  else if algo = "Rainbow DQN" then
    seqBuild (fun idx => buildAgent INIT_HP
      ["BATCH_SIZE", "LR", "LEARN_STEP", "GAMMA", "TAU", "BETA", "PRIOR_EPS",
        "NUM_ATOMS", "V_MIN", "V_MAX", "N_STEP"]
      (fun hp =>
        { ctor := "RainbowDQN", index := idx, obs := observation_space, act := action_space,
          one_hot := some one_hot, net_config := net_config, vect_noise_dim := none,
          device := device, accelerator := accelerator, hp := hp }))
      (List.range population_size)
  else if algo = "DDPG" then
    seqBuild (fun idx => buildAgent INIT_HP
      ["MAX_ACTION", "MIN_ACTION", "O_U_NOISE", "EXPL_NOISE", "MEAN_NOISE", "THETA",
        "DT", "BATCH_SIZE", "LR_ACTOR", "LR_CRITIC", "LEARN_STEP", "GAMMA", "TAU",
        "POLICY_FREQ"]
      (fun hp =>
        { ctor := "DDPG", index := idx, obs := observation_space, act := action_space,
          one_hot := some one_hot, net_config := net_config,
          vect_noise_dim := some num_envs, device := device, accelerator := accelerator,
          hp := hp }))
      (List.range population_size)
  else if algo = "PPO" then
    seqBuild (fun idx => buildAgent INIT_HP
      ["DISCRETE_ACTIONS", "BATCH_SIZE", "LR", "LEARN_STEP", "GAMMA", "GAE_LAMBDA",
        "ACTION_STD_INIT", "CLIP_COEF", "ENT_COEF", "VF_COEF", "MAX_GRAD_NORM",
        "TARGET_KL", "UPDATE_EPOCHS"]
      (fun hp =>
        { ctor := "PPO", index := idx, obs := observation_space, act := action_space,
          one_hot := some one_hot, net_config := net_config, vect_noise_dim := none,
          device := device, accelerator := accelerator, hp := hp }))
      (List.range population_size)
  else if algo = "CQN" then
    seqBuild (fun idx => buildAgent INIT_HP
      ["BATCH_SIZE", "LR", "LEARN_STEP", "GAMMA", "TAU", "DOUBLE"]
      (fun hp =>
        { ctor := "CQN", index := idx, obs := observation_space, act := action_space,
          one_hot := some one_hot, net_config := net_config, vect_noise_dim := none,
          device := device, accelerator := accelerator, hp := hp }))
      (List.range population_size)
  else if algo = "TD3" then
    seqBuild (fun idx => buildAgent INIT_HP
      ["MAX_ACTION", "MIN_ACTION", "O_U_NOISE", "EXPL_NOISE", "MEAN_NOISE", "THETA",
        "DT", "BATCH_SIZE", "LR_ACTOR", "LR_CRITIC", "LEARN_STEP", "GAMMA", "TAU",
        "POLICY_FREQ"]
      (fun hp =>
        { ctor := "TD3", index := idx, obs := observation_space, act := action_space,
          one_hot := some one_hot, net_config := net_config,
          vect_noise_dim := some num_envs, device := device, accelerator := accelerator,
          hp := hp }))
      (List.range population_size)
  else if algo = "MADDPG" then
    seqBuild (fun idx => buildAgent INIT_HP
      ["N_AGENTS", "AGENT_IDS", "O_U_NOISE", "EXPL_NOISE", "MEAN_NOISE", "THETA", "DT",
        "MAX_ACTION", "MIN_ACTION", "BATCH_SIZE", "LR_ACTOR", "LR_CRITIC", "LEARN_STEP",
        "GAMMA", "TAU", "DISCRETE_ACTIONS"]
      (fun hp =>
        { ctor := "MADDPG", index := idx, obs := observation_space, act := action_space,
          one_hot := some one_hot, net_config := net_config,
          vect_noise_dim := some num_envs, device := device, accelerator := accelerator,
          hp := hp }))
      (List.range population_size)
  else if algo = "MATD3" then
    seqBuild (fun idx => buildAgent INIT_HP
      ["N_AGENTS", "AGENT_IDS", "O_U_NOISE", "EXPL_NOISE", "MEAN_NOISE", "THETA", "DT",
        "MAX_ACTION", "MIN_ACTION", "BATCH_SIZE", "LR_ACTOR", "LR_CRITIC", "POLICY_FREQ",
        "LEARN_STEP", "GAMMA", "TAU", "DISCRETE_ACTIONS"]
      (fun hp =>
        { ctor := "MATD3", index := idx, obs := observation_space, act := action_space,
          one_hot := some one_hot, net_config := net_config,
          vect_noise_dim := some num_envs, device := device, accelerator := accelerator,
          hp := hp }))
      (List.range population_size)
  else if algo = "NeuralUCB" then
    seqBuild (fun idx => buildAgent INIT_HP
      ["GAMMA", "LAMBDA", "REG", "BATCH_SIZE", "LR", "LEARN_STEP"]
      (fun hp =>
        { ctor := "NeuralUCB", index := idx, obs := observation_space, act := action_space,
          one_hot := none, net_config := net_config, vect_noise_dim := none,
          device := device, accelerator := accelerator, hp := hp }))
      (List.range population_size)
  else if algo = "NeuralTS" then
    seqBuild (fun idx => buildAgent INIT_HP
      ["GAMMA", "LAMBDA", "REG", "BATCH_SIZE", "LR", "LEARN_STEP"]
      (fun hp =>
        { ctor := "NeuralTS", index := idx, obs := observation_space, act := action_space,
          one_hot := none, net_config := net_config, vect_noise_dim := none,
          device := device, accelerator := accelerator, hp := hp }))
      (List.range population_size)
  else
    .ok []

/-- The closed set of recognized algorithm identifier strings. -/
def recognizedAlgos : List String :=
  ["DQN", "Rainbow DQN", "DDPG", "PPO", "CQN", "TD3", "MADDPG", "MATD3",
    "NeuralUCB", "NeuralTS"]

/-- The hyperparameter keys each recognized algorithm requires (as the code
reads them); MADDPG does not include `POLICY_FREQ`, MATD3 does. -/
def requiredKeys : String → List String
  | "DQN" => ["BATCH_SIZE", "LR", "LEARN_STEP", "GAMMA", "TAU", "DOUBLE"]
  | "Rainbow DQN" =>
    ["BATCH_SIZE", "LR", "LEARN_STEP", "GAMMA", "TAU", "BETA", "PRIOR_EPS",
      "NUM_ATOMS", "V_MIN", "V_MAX", "N_STEP"]
  | "DDPG" =>
    ["MAX_ACTION", "MIN_ACTION", "O_U_NOISE", "EXPL_NOISE", "MEAN_NOISE", "THETA",
      "DT", "BATCH_SIZE", "LR_ACTOR", "LR_CRITIC", "LEARN_STEP", "GAMMA", "TAU",
      "POLICY_FREQ"]
  | "PPO" =>
    ["DISCRETE_ACTIONS", "BATCH_SIZE", "LR", "LEARN_STEP", "GAMMA", "GAE_LAMBDA",
      "ACTION_STD_INIT", "CLIP_COEF", "ENT_COEF", "VF_COEF", "MAX_GRAD_NORM",
      "TARGET_KL", "UPDATE_EPOCHS"]
  | "CQN" => ["BATCH_SIZE", "LR", "LEARN_STEP", "GAMMA", "TAU", "DOUBLE"]
  | "TD3" =>
    ["MAX_ACTION", "MIN_ACTION", "O_U_NOISE", "EXPL_NOISE", "MEAN_NOISE", "THETA",
      "DT", "BATCH_SIZE", "LR_ACTOR", "LR_CRITIC", "LEARN_STEP", "GAMMA", "TAU",
      "POLICY_FREQ"]
  | "MADDPG" =>
    ["N_AGENTS", "AGENT_IDS", "O_U_NOISE", "EXPL_NOISE", "MEAN_NOISE", "THETA", "DT",
      "MAX_ACTION", "MIN_ACTION", "BATCH_SIZE", "LR_ACTOR", "LR_CRITIC", "LEARN_STEP",
      "GAMMA", "TAU", "DISCRETE_ACTIONS"]
  | "MATD3" =>
    ["N_AGENTS", "AGENT_IDS", "O_U_NOISE", "EXPL_NOISE", "MEAN_NOISE", "THETA", "DT",
      "MAX_ACTION", "MIN_ACTION", "BATCH_SIZE", "LR_ACTOR", "LR_CRITIC", "POLICY_FREQ",
      "LEARN_STEP", "GAMMA", "TAU", "DISCRETE_ACTIONS"]
  | "NeuralUCB" => ["GAMMA", "LAMBDA", "REG", "BATCH_SIZE", "LR", "LEARN_STEP"]
  | "NeuralTS" => ["GAMMA", "LAMBDA", "REG", "BATCH_SIZE", "LR", "LEARN_STEP"]
  | _ => []

/-- The Python class name each recognized identifier dispatches to. -/
def ctorName : String → String
  | "Rainbow DQN" => "RainbowDQN"
  | s => s

/-- `True` exactly when the factory call raised a `KeyError`. -/
def raisesKeyError : Except String (List AgentCall) → Bool
  | .error _ => true
  | .ok _ => false

/-- `get_env_defined_actions(info, agents)`: build the per-agent mapping of
`info[agent].get("env_defined_action", None)` values; return `None`
(modelled `none`) when every value is absent, the mapping otherwise.  The
per-agent info dictionaries are modelled by the function `info`, with
`info agent = none` when agent's dictionary has no `"env_defined_action"`
entry (Python's `.get` default `None`). -/
def get_env_defined_actions (info : String → Option Int) (agents : List String) :
    Option (List (String × Option Int)) :=
  let env_defined_actions := agents.map (fun agent => (agent, info agent))
  if env_defined_actions.all (fun p => p.2.isNone) then none
  else some env_defined_actions

/-! Concrete inputs used to exercise the factory. -/

/-- A complete DQN hyperparameter mapping. -/
def hpDQN : List (String × Int) :=
  [("BATCH_SIZE", 64), ("LR", 1), ("LEARN_STEP", 5), ("GAMMA", 99), ("TAU", 1),
    ("DOUBLE", 1)]

/-- The three constructor calls `create_population "DQN" ... 3 ...` records
on `hpDQN`. -/
def popDQN3 : List AgentCall :=
  [⟨"DQN", 0, 0, 0, some true, none, none, "cpu", none, hpDQN⟩,
    ⟨"DQN", 1, 0, 0, some true, none, none, "cpu", none, hpDQN⟩,
    ⟨"DQN", 2, 0, 0, some true, none, none, "cpu", none, hpDQN⟩]

/-- A complete DDPG hyperparameter mapping. -/
def hpDDPG : List (String × Int) :=
  [("MAX_ACTION", 1), ("MIN_ACTION", -1), ("O_U_NOISE", 1), ("EXPL_NOISE", 0),
    ("MEAN_NOISE", 0), ("THETA", 15), ("DT", 1), ("BATCH_SIZE", 64), ("LR_ACTOR", 1),
    ("LR_CRITIC", 1), ("LEARN_STEP", 5), ("GAMMA", 99), ("TAU", 1), ("POLICY_FREQ", 2)]

/-- The single constructor call `create_population "DDPG" ... 1 4 ...`
records on `hpDDPG`. -/
def popDDPG1 : List AgentCall :=
  [⟨"DDPG", 0, 0, 0, some true, none, some 4, "cpu", none, hpDDPG⟩]

/-- A complete NeuralUCB / NeuralTS hyperparameter mapping. -/
def hpBandit : List (String × Int) :=
  [("GAMMA", 1), ("LAMBDA", 1), ("REG", 1), ("BATCH_SIZE", 64), ("LR", 1),
    ("LEARN_STEP", 2)]

/-- Every MADDPG hyperparameter key the code reads, with `POLICY_FREQ`
deliberately absent. -/
def hpMADDPGnoPF : List (String × Int) :=
  [("N_AGENTS", 2), ("AGENT_IDS", 0), ("O_U_NOISE", 1), ("EXPL_NOISE", 0),
    ("MEAN_NOISE", 0), ("THETA", 15), ("DT", 1), ("MAX_ACTION", 1), ("MIN_ACTION", -1),
    ("BATCH_SIZE", 64), ("LR_ACTOR", 1), ("LR_CRITIC", 1), ("LEARN_STEP", 5),
    ("GAMMA", 99), ("TAU", 1), ("DISCRETE_ACTIONS", 1)]

example : calculate_vectorized_scores [[1, 2, 3]] [[0, 0, 0]] = [6] := by decide
example : calculate_vectorized_scores [[1, 2, 3, 4]] [[0, 1, 0, 0]] = [3] := by decide
example : calculate_vectorized_scores [[1, 2, 3, 4]] [[0, 1, 0, 1]] false false = [3, 7] := by
  decide
example : calculate_vectorized_scores [[1, 2, 3, 4]] [[0, 1, 0, 0]] true false = [3, 7] := by
  decide

/-! Helper lemmas about the score calculator. -/

theorem mem_terminationIndices {t : List Int} {i : Nat} :
    i ∈ terminationIndices t ↔ i < t.length ∧ t.getD i 0 = 1 := by
  simp [terminationIndices, List.mem_filter, List.mem_range]

theorem terminationIndices_pairwise (t : List Int) :
    (terminationIndices t).Pairwise (· < ·) :=
  (List.pairwise_lt_range t.length).filter _

theorem sliceSum_zero_length (r : List Int) : sliceSum r 0 r.length = r.sum := by
  simp [sliceSum]

theorem sliceSum_self (r : List Int) (a : Nat) : sliceSum r a a = 0 := by
  simp [sliceSum]

theorem sliceSum_add (r : List Int) {a b c : Nat} (hab : a ≤ b) (hbc : b ≤ c) :
    sliceSum r a b + sliceSum r b c = sliceSum r a c := by
  unfold sliceSum
  have hc : c - a = (b - a) + (c - b) := by omega
  have hd : r.drop b = (r.drop a).drop (b - a) := by
    rw [List.drop_drop]
    congr 1
    omega
  rw [hc, List.take_add, List.sum_append, hd]

theorem segmentLoop_first (r : List Int) (start ti : Nat) (rest : List Nat) :
    segmentLoop r true start (ti :: rest) = ([sliceSum r start (ti + 1)], start) := by
  simp [segmentLoop]

theorem segmentLoop_false_fst (r : List Int) : ∀ (start : Nat) (tis : List Nat),
    (segmentLoop r false start tis).1
      = (specWindows start tis).map (fun w => sliceSum r w.2 (w.1 + 1))
  | _, [] => by simp [segmentLoop, specWindows]
  | start, ti :: rest => by
    simp only [segmentLoop, specWindows, List.map_cons, List.zip_cons_cons]
    exact congrArg _ (segmentLoop_false_fst r (ti + 1) rest)

theorem segmentLoop_false_snd (r : List Int) : ∀ (start : Nat) (tis : List Nat),
    tis ≠ [] → (segmentLoop r false start tis).2 = tis.getLastD 0 + 1
  | _, [], h => absurd rfl h
  | _, [_], _ => by simp [segmentLoop]
  | start, ti :: ti' :: rest, _ => by
    have ih := segmentLoop_false_snd r (ti + 1) (ti' :: rest) (by simp)
    simpa [segmentLoop] using ih

theorem segmentLoop_false_sum (r : List Int) : ∀ (start : Nat) (tis : List Nat),
    tis.Pairwise (· < ·) → (∀ ti ∈ tis, start ≤ ti) → (∀ ti ∈ tis, ti < r.length) →
    (segmentLoop r false start tis).1.sum
        + sliceSum r (segmentLoop r false start tis).2 r.length
      = sliceSum r start r.length
  | _, [], _, _, _ => by simp [segmentLoop]
  | start, ti :: rest, hp, hs, hb => by
    have hp' := (List.pairwise_cons.mp hp).2
    have hlt := (List.pairwise_cons.mp hp).1
    have ih := segmentLoop_false_sum r (ti + 1) rest hp'
      (fun u hu => hlt u hu) (fun u hu => hb u (List.mem_cons_of_mem _ hu))
    rw [show segmentLoop r false start (ti :: rest)
        = (sliceSum r start (ti + 1) :: (segmentLoop r false (ti + 1) rest).1,
            (segmentLoop r false (ti + 1) rest).2) from rfl]
    simp only [List.sum_cons]
    rw [add_assoc, ih]
    exact sliceSum_add r (Nat.le_succ_of_le (hs ti (List.mem_cons_self _ _)))
      (hb ti (List.mem_cons_self _ _))

/-- Every row of scores agrees between the source embedding and the
spec-side formulation. -/
theorem rowScores_eq_spec (r t : List Int) (iu ofe : Bool) :
    rowScores r t iu ofe = specRowScores r t iu ofe := by
  unfold rowScores specRowScores
  cases htis : terminationIndices t with
  | nil => simp
  | cons t0 rest =>
    cases ofe with
    | true =>
      simp [segmentLoop_first]
    | false =>
      have h1 := segmentLoop_false_fst r 0 (t0 :: rest)
      have h2 := segmentLoop_false_snd r 0 (t0 :: rest) (by simp)
      simp only [List.cons_ne_self, if_neg, Bool.not_false, Bool.true_and]
      rw [h1, h2]
      cases hc : iu && decide ((t0 :: rest).getLastD 0 + 1 < r.length) <;> simp [hc]

/-- C1: for every pair of reward/termination matrices,
`calculate_vectorized_scores` computes exactly the per-row segmentation
algorithm of spec section 4.3: rows are processed independently in row order
(environment-major output); within a row the termination indices are walked
in ascending order, each episode window spans `[start, termination_index]`
inclusive with `start` beginning at 0 and advancing to
`termination_index + 1` when `only_first_episode` is false, each window's
reward sum is appended, and after the last termination index (reachable
only when `only_first_episode` is false) a final partial score
`sum(rewards[row, start:])` is appended iff `include_unterminated` is true
and `start < row length`. -/
theorem calculate_vectorized_scores_eq_spec (rewards terminations : List (List Int))
    (iu ofe : Bool) :
    calculate_vectorized_scores rewards terminations iu ofe
      = specScores rewards terminations iu ofe := by
  simp only [calculate_vectorized_scores, specScores, rowScores_eq_spec]

/-- In full-accumulation mode a row's scores partition the row: they sum to
the row's total reward. -/
theorem rowScores_sum (r t : List Int) (hlen : t.length = r.length) :
    (rowScores r t true false).sum = r.sum := by
  have hbound : ∀ ti ∈ terminationIndices t, ti < r.length := fun ti hti =>
    hlen ▸ (mem_terminationIndices.mp hti).1
  have hpw := terminationIndices_pairwise t
  cases htis : terminationIndices t with
  | nil => simp [rowScores, htis]
  | cons t0 rest =>
    rw [htis] at hbound hpw
    have hsum := segmentLoop_false_sum r 0 (t0 :: rest) hpw (fun _ _ => Nat.zero_le _) hbound
    have hsnd := segmentLoop_false_snd r 0 (t0 :: rest) (by simp)
    have hle : (segmentLoop r false 0 (t0 :: rest)).2 ≤ r.length := by
      rw [hsnd]
      have hmem : (t0 :: rest).getLastD 0 ∈ t0 :: rest := by
        rw [List.getLastD_cons]
        exact List.getLastD_mem_cons rest t0
      exact hbound _ hmem
    by_cases hc : (segmentLoop r false 0 (t0 :: rest)).2 < r.length
    · rw [show rowScores r t true false
          = (segmentLoop r false 0 (t0 :: rest)).1
              ++ [sliceSum r (segmentLoop r false 0 (t0 :: rest)).2 r.length] from by
        simp [rowScores, htis, hc]]
      rw [List.sum_append, List.sum_cons, List.sum_nil, add_zero, hsum, sliceSum_zero_length]
    · rw [show rowScores r t true false = (segmentLoop r false 0 (t0 :: rest)).1 from by
        simp [rowScores, htis, hc]]
      have heq : (segmentLoop r false 0 (t0 :: rest)).2 = r.length := le_antisymm hle
        (Nat.le_of_not_lt hc)
      rw [heq, sliceSum_self, add_zero, sliceSum_zero_length] at hsum
      exact hsum

/-- C2: with `include_unterminated = true` and `only_first_episode = false`,
for identically shaped reward/termination matrices, the scores of any
environment row sum to exactly that row's total reward, and consequently
the whole output sums to the total of all rewards. -/
theorem scores_partition_rewards (rewards terminations : List (List Int))
    (hshape : List.Forall₂ (fun r t => r.length = t.length) rewards terminations)
    (i : Nat) (hi : i < rewards.length) :
    (rowScores (rewards.getD i []) (terminations.getD i []) true false).sum
        = (rewards.getD i []).sum ∧
      (calculate_vectorized_scores rewards terminations true false).sum
        = (rewards.map List.sum).sum := by
  constructor
  · have hi' : i < terminations.length := hshape.length_eq ▸ hi
    have hrel := hshape.get hi hi'
    apply rowScores_sum
    rw [List.getD_eq_getElem rewards [] hi, List.getD_eq_getElem terminations [] hi']
    exact hrel.symm
  · clear hi
    induction hshape with
    | nil => rfl
    | cons hrt _ ih =>
      simp only [calculate_vectorized_scores, List.zip_cons_cons, List.map_cons,
        List.flatten_cons, List.sum_append, List.sum_cons] at ih ⊢
      rw [ih, rowScores_sum _ _ hrt.symm]

/-- Witness for C2: two rows, one with a mid-row termination. -/
theorem scores_partition_rewards_witness :
    (List.Forall₂ (fun (r t : List Int) => r.length = t.length)
        [[1, 2, 3, 4], [5, 6]] [[0, 1, 0, 0], [0, 0]]
      ∧ 0 < ([[1, 2, 3, 4], [5, 6]] : List (List Int)).length)
      ∧ ((rowScores (([[1, 2, 3, 4], [5, 6]] : List (List Int)).getD 0 [])
            (([[0, 1, 0, 0], [0, 0]] : List (List Int)).getD 0 []) true false).sum
          = (([[1, 2, 3, 4], [5, 6]] : List (List Int)).getD 0 []).sum
        ∧ (calculate_vectorized_scores [[1, 2, 3, 4], [5, 6]] [[0, 1, 0, 0], [0, 0]]
              true false).sum
          = (([[1, 2, 3, 4], [5, 6]] : List (List Int)).map List.sum).sum) := by
  have hf : List.Forall₂ (fun (r t : List Int) => r.length = t.length)
      [[1, 2, 3, 4], [5, 6]] [[0, 1, 0, 0], [0, 0]] :=
    List.Forall₂.cons rfl (List.Forall₂.cons rfl List.Forall₂.nil)
  exact ⟨⟨hf, by decide⟩, scores_partition_rewards _ _ hf 0 (by decide)⟩

/-- The head of the termination-index list is the least index whose
termination entry equals 1. -/
theorem terminationIndices_head_min {t : List Int} {t0 : Nat} {rest : List Nat}
    (h : terminationIndices t = t0 :: rest) :
    t0 < t.length ∧ t.getD t0 0 = 1 ∧ ∀ j < t0, t.getD j 0 ≠ 1 := by
  have hmem : t0 ∈ terminationIndices t := by
    rw [h]
    exact List.mem_cons_self _ _
  obtain ⟨hlt, hval⟩ := mem_terminationIndices.mp hmem
  refine ⟨hlt, hval, fun j hj hjval => ?_⟩
  have hjmem : j ∈ terminationIndices t :=
    mem_terminationIndices.mpr ⟨lt_trans hj hlt, hjval⟩
  rw [h] at hjmem
  rcases List.mem_cons.mp hjmem with rfl | hjrest
  · exact lt_irrefl _ hj
  · have hpw := terminationIndices_pairwise t
    rw [h] at hpw
    have := (List.pairwise_cons.mp hpw).1 j hjrest
    omega

/-- C5: when `only_first_episode` is true and the row has at least one
termination (`t0` being the first termination index, i.e. the least index
whose entry is 1), exactly one score is produced for the row — the sum of
`rewards[row, 0..t0]` — regardless of `include_unterminated`; later
terminations and later rewards are ignored. -/
theorem only_first_episode_single_score (r t : List Int) (iu : Bool) (t0 : Nat)
    (h : (terminationIndices t).head? = some t0) :
    (t.getD t0 0 = 1 ∧ ∀ j < t0, t.getD j 0 ≠ 1)
      ∧ rowScores r t iu true = [sliceSum r 0 (t0 + 1)]
      ∧ calculate_vectorized_scores [r] [t] iu true = [sliceSum r 0 (t0 + 1)] := by
  cases htis : terminationIndices t with
  | nil =>
    rw [htis] at h
    simp at h
  | cons a rest =>
    rw [htis] at h
    have ha : a = t0 := by simpa using h
    subst ha
    have hmin := terminationIndices_head_min htis
    have hrow : rowScores r t iu true = [sliceSum r 0 (a + 1)] := by
      simp [rowScores, htis, segmentLoop_first]
    refine ⟨⟨hmin.2.1, hmin.2.2⟩, hrow, ?_⟩
    simp [calculate_vectorized_scores, hrow]

/-- Witness for C5: one row with termination index 1. -/
theorem only_first_episode_single_score_witness :
    (terminationIndices [0, 1, 0, 0]).head? = some 1
      ∧ ((([0, 1, 0, 0] : List Int).getD 1 0 = 1
            ∧ ∀ j < 1, ([0, 1, 0, 0] : List Int).getD j 0 ≠ 1)
        ∧ rowScores [1, 2, 3, 4] [0, 1, 0, 0] false true
            = [sliceSum [1, 2, 3, 4] 0 (1 + 1)]
        ∧ calculate_vectorized_scores [[1, 2, 3, 4]] [[0, 1, 0, 0]] false true
            = [sliceSum [1, 2, 3, 4] 0 (1 + 1)]) :=
  ⟨by decide,
    only_first_episode_single_score [1, 2, 3, 4] [0, 1, 0, 0] false 1 (by decide)⟩

/-! Helper lemmas about the population factory. -/

theorem buildAgent_ok {m : List (String × Int)} {ks : List String}
    {f : List (String × Int) → AgentCall} {ag : AgentCall}
    (h : buildAgent m ks f = .ok ag) : ∃ hp, readKeys m ks = .ok hp ∧ ag = f hp := by
  cases hrk : readKeys m ks with
  | error e => simp [buildAgent, hrk] at h
  | ok hp =>
    simp only [buildAgent, hrk, Except.ok.injEq] at h
    exact ⟨hp, rfl, h.symm⟩

theorem readKeys_err_iff (m : List (String × Int)) : ∀ (ks : List String),
    (∃ e, readKeys m ks = .error e) ↔ ∃ k ∈ ks, m.lookup k = none
  | [] => by simp [readKeys]
  | k :: ks => by
    cases hl : m.lookup k with
    | none =>
      simp only [readKeys, lookupHP, hl]
      exact ⟨fun _ => ⟨k, List.mem_cons_self _ _, hl⟩, fun _ => ⟨k, rfl⟩⟩
    | some v =>
      cases hrk : readKeys m ks with
      | error e =>
        simp only [readKeys, lookupHP, hl, hrk]
        constructor
        · intro _
          obtain ⟨k', hk', hn⟩ := (readKeys_err_iff m ks).mp ⟨e, hrk⟩
          exact ⟨k', List.mem_cons_of_mem _ hk', hn⟩
        · intro _
          exact ⟨e, rfl⟩
      | ok rest =>
        simp only [readKeys, lookupHP, hl, hrk]
        constructor
        · rintro ⟨e, he⟩
          exact Except.noConfusion he
        · rintro ⟨k', hk', hn⟩
          rcases List.mem_cons.mp hk' with rfl | hk'
          · rw [hl] at hn
            exact Option.noConfusion hn
          · obtain ⟨e, he⟩ := (readKeys_err_iff m ks).mpr ⟨k', hk', hn⟩
            rw [he] at hrk
            exact Except.noConfusion hrk

theorem buildAgent_err_iff {m : List (String × Int)} {ks : List String}
    {f : List (String × Int) → AgentCall} :
    (∃ e, buildAgent m ks f = .error e) ↔ ∃ k ∈ ks, m.lookup k = none := by
  cases hrk : readKeys m ks with
  | error e =>
    simp only [buildAgent, hrk]
    exact ⟨fun _ => (readKeys_err_iff m ks).mp ⟨e, hrk⟩, fun _ => ⟨e, rfl⟩⟩
  | ok hp =>
    simp only [buildAgent, hrk]
    constructor
    · rintro ⟨e, he⟩
      exact Except.noConfusion he
    · intro hmiss
      obtain ⟨e, he⟩ := (readKeys_err_iff m ks).mpr hmiss
      rw [he] at hrk
      exact Except.noConfusion hrk

theorem seqBuild_forall₂ {mk : Nat → Except String AgentCall} :
    ∀ {is : List Nat} {l : List AgentCall}, seqBuild mk is = .ok l →
      List.Forall₂ (fun i a => mk i = .ok a) is l := by
  intro is
  induction is with
  | nil =>
    intro l h
    simp only [seqBuild, Except.ok.injEq] at h
    rw [← h]
    exact List.Forall₂.nil
  | cons i is ih =>
    intro l h
    cases hmk : mk i with
    | error e => simp [seqBuild, hmk] at h
    | ok a =>
      cases hsb : seqBuild mk is with
      | error e => simp [seqBuild, hmk, hsb] at h
      | ok rest =>
        simp only [seqBuild, hmk, hsb, Except.ok.injEq] at h
        rw [← h]
        exact List.Forall₂.cons hmk (ih hsb)

theorem seqBuild_err_imp {mk : Nat → Except String AgentCall} {P : Prop}
    (h : ∀ i e, mk i = .error e → P) :
    ∀ (is : List Nat) (e : String), seqBuild mk is = .error e → P := by
  intro is
  induction is with
  | nil =>
    intro e he
    simp [seqBuild] at he
  | cons i is ih =>
    intro e he
    cases hmk : mk i with
    | error e' => exact h i e' hmk
    | ok a =>
      cases hsb : seqBuild mk is with
      | error e' => exact ih e' hsb
      | ok rest => simp [seqBuild, hmk, hsb] at he

/-- Branch characterization of `create_population` at a recognized `algo`:
it is `seqBuild` of `buildAgent` over the algorithm's required keys, and
the recorded constructor-call fields are as listed. -/
theorem create_population_char (algo : String) (h : algo ∈ recognizedAlgos)
    (o a : Nat) (oh : Bool) (nc : Option Nat) (m : List (String × Int))
    (n ne : Nat) (dev : String) (acc : Option Nat) :
    ∃ f : Nat → List (String × Int) → AgentCall,
      create_population algo o a oh nc m n ne dev acc
        = seqBuild (fun idx => buildAgent m (requiredKeys algo) (f idx))
            (List.range n) ∧
      ∀ idx hp, (f idx hp).index = idx ∧ (f idx hp).ctor = ctorName algo
        ∧ (f idx hp).obs = o ∧ (f idx hp).act = a
        ∧ (f idx hp).one_hot
            = (if algo = "NeuralUCB" ∨ algo = "NeuralTS" then none else some oh)
        ∧ (f idx hp).net_config = nc
        ∧ (f idx hp).vect_noise_dim
            = (if algo = "DDPG" ∨ algo = "TD3" ∨ algo = "MADDPG" ∨ algo = "MATD3"
              then some ne else none)
        ∧ (f idx hp).device = dev ∧ (f idx hp).accelerator = acc
        ∧ (f idx hp).hp = hp := by
  simp only [recognizedAlgos, List.mem_cons, List.not_mem_nil, or_false] at h
  rcases h with rfl | rfl | rfl | rfl | rfl | rfl | rfl | rfl | rfl | rfl <;>
    exact ⟨_, rfl, fun idx hp =>
      ⟨rfl, rfl, rfl, rfl,
        by first | rw [if_neg (by decide)] | rw [if_pos (by decide)],
        rfl,
        by first | rw [if_neg (by decide)] | rw [if_pos (by decide)],
        rfl, rfl, rfl⟩⟩

/-- C3: for every recognized `algo` and every `population_size = N`, a
(successful) `create_population` call returns a list of exactly N recorded
agents whose `index` fields are `0..N-1` in construction order. -/
theorem create_population_length_index (algo : String) (h : algo ∈ recognizedAlgos)
    (o a : Nat) (oh : Bool) (nc : Option Nat) (m : List (String × Int))
    (n ne : Nat) (dev : String) (acc : Option Nat) (pop : List AgentCall)
    (hpop : create_population algo o a oh nc m n ne dev acc = .ok pop) :
    pop.length = n ∧ ∀ i (hi : i < pop.length), (pop.get ⟨i, hi⟩).index = i := by
  obtain ⟨f, heq, hf⟩ := create_population_char algo h o a oh nc m n ne dev acc
  rw [heq] at hpop
  have hfa := seqBuild_forall₂ hpop
  have hlen : pop.length = n := by simpa using hfa.length_eq.symm
  refine ⟨hlen, fun i hi => ?_⟩
  have hin : i < (List.range n).length := by
    rw [hfa.length_eq]
    exact hi
  have hgot := hfa.get hin hi
  rw [List.get_range] at hgot
  obtain ⟨hp, _, hag⟩ := buildAgent_ok hgot
  rw [hag]
  exact (hf i hp).1

/-- Witness for C3: a DQN population of size 3. -/
theorem create_population_length_index_witness :
    ("DQN" ∈ recognizedAlgos
        ∧ create_population "DQN" 0 0 true none hpDQN 3 1 "cpu" none = .ok popDQN3)
      ∧ (popDQN3.length = 3
        ∧ ∀ i (hi : i < popDQN3.length), (popDQN3.get ⟨i, hi⟩).index = i) :=
  ⟨⟨by decide, by rfl⟩,
    create_population_length_index "DQN" (by decide) 0 0 true none hpDQN 3 1 "cpu" none
      popDQN3 (by rfl)⟩

/-- C4: for every `algo` outside the recognized set, `create_population`
returns the empty population and raises nothing, regardless of the other
arguments. -/
theorem create_population_unrecognized (algo : String) (h : algo ∉ recognizedAlgos)
    (o a : Nat) (oh : Bool) (nc : Option Nat) (m : List (String × Int))
    (n ne : Nat) (dev : String) (acc : Option Nat) :
    create_population algo o a oh nc m n ne dev acc = .ok [] := by
  simp only [recognizedAlgos, List.mem_cons, List.not_mem_nil, or_false, not_or] at h
  obtain ⟨h1, h2, h3, h4, h5, h6, h7, h8, h9, h10⟩ := h
  simp only [create_population, if_neg h1, if_neg h2, if_neg h3, if_neg h4, if_neg h5,
    if_neg h6, if_neg h7, if_neg h8, if_neg h9, if_neg h10]

/-- Witness for C4: the unrecognized identifier "A2C". -/
theorem create_population_unrecognized_witness :
    "A2C" ∉ recognizedAlgos
      ∧ create_population "A2C" 0 0 true none [] 5 2 "cpu" none = .ok [] :=
  ⟨by decide,
    create_population_unrecognized "A2C" (by decide) 0 0 true none [] 5 2 "cpu" none⟩

/-- C6 counterexample: the section-4.2 table's "MADDPG / MATD3 require the
DDPG/TD3 keys" reading is false on the code: `POLICY_FREQ` is one of the
DDPG/TD3 keys, yet `create_population "MADDPG"` with every key except
`POLICY_FREQ` present raises no lookup failure (while `"MATD3"` on the same
mapping does raise one). -/
theorem maddpg_policy_freq_counterexample :
    "POLICY_FREQ" ∈ requiredKeys "DDPG"
      ∧ hpMADDPGnoPF.lookup "POLICY_FREQ" = none
      ∧ raisesKeyError
          (create_population "MADDPG" 0 0 true none hpMADDPGnoPF 1 1 "cpu" none) = false
      ∧ raisesKeyError
          (create_population "MATD3" 0 0 true none hpMADDPGnoPF 1 1 "cpu" none) = true := by
  decide

/-- C6 (amended): for every recognized `algo` and positive population size,
`create_population` raises a lookup failure iff `INIT_HP` is missing one of
the algorithm's required keys — where `POLICY_FREQ` belongs to the required
keys of DDPG, TD3 and MATD3 but not MADDPG (`requiredKeys`). -/
theorem create_population_keyerror_iff (algo : String) (h : algo ∈ recognizedAlgos)
    (o a : Nat) (oh : Bool) (nc : Option Nat) (m : List (String × Int))
    (n : Nat) (hn : 0 < n) (ne : Nat) (dev : String) (acc : Option Nat) :
    raisesKeyError (create_population algo o a oh nc m n ne dev acc) = true
      ↔ ∃ k ∈ requiredKeys algo, m.lookup k = none := by
  obtain ⟨f, heq, _⟩ := create_population_char algo h o a oh nc m n ne dev acc
  rw [heq]
  constructor
  · intro herr
    cases hsb : seqBuild (fun idx => buildAgent m (requiredKeys algo) (f idx))
        (List.range n) with
    | ok l =>
      rw [hsb] at herr
      simp [raisesKeyError] at herr
    | error e =>
      exact seqBuild_err_imp (fun i e' hie => buildAgent_err_iff.mp ⟨e', hie⟩) _ e hsb
  · intro hmiss
    obtain ⟨e, he⟩ := (buildAgent_err_iff (f := f 0)).mpr hmiss
    obtain ⟨n', rfl⟩ : ∃ n', n = n' + 1 := ⟨n - 1, by omega⟩
    rw [List.range_succ_eq_map]
    simp [seqBuild, he, raisesKeyError]

/-- Witness for C6 (amended): MATD3 on the `POLICY_FREQ`-less mapping. -/
theorem create_population_keyerror_iff_witness :
    ("MATD3" ∈ recognizedAlgos ∧ 0 < 1)
      ∧ (raisesKeyError
            (create_population "MATD3" 0 0 true none hpMADDPGnoPF 1 1 "cpu" none) = true
        ↔ ∃ k ∈ requiredKeys "MATD3", hpMADDPGnoPF.lookup k = none) :=
  ⟨⟨by decide, by decide⟩,
    create_population_keyerror_iff "MATD3" (by decide) 0 0 true none hpMADDPGnoPF 1
      (by decide) 1 "cpu" none⟩

/-- C7 counterexample: `one_hot` is not forwarded to every recognized
algorithm's constructor: `create_population "NeuralUCB"` called with
`one_hot = true` records no `one_hot` argument at all (`none`). -/
theorem one_hot_not_forwarded_counterexample :
    (create_population "NeuralUCB" 0 0 true none hpBandit 1 1 "cpu" none).map
      (fun pop => pop.map AgentCall.one_hot) = .ok [none] := by
  rfl

/-- C7 (amended): for every recognized `algo` and every population slot,
the dedicated constructor is called with `observation_space`,
`action_space`, `net_config`, `device` and `accelerator` forwarded, and
`one_hot` forwarded for all algorithms except NeuralUCB and NeuralTS, whose
constructors receive no `one_hot` argument. -/
theorem create_population_forwarding (algo : String) (h : algo ∈ recognizedAlgos)
    (o a : Nat) (oh : Bool) (nc : Option Nat) (m : List (String × Int))
    (n ne : Nat) (dev : String) (acc : Option Nat) (pop : List AgentCall)
    (hpop : create_population algo o a oh nc m n ne dev acc = .ok pop) :
    ∀ ag ∈ pop, ag.ctor = ctorName algo ∧ ag.obs = o ∧ ag.act = a
      ∧ ag.net_config = nc ∧ ag.device = dev ∧ ag.accelerator = acc
      ∧ ag.one_hot
          = (if algo = "NeuralUCB" ∨ algo = "NeuralTS" then none else some oh) := by
  obtain ⟨f, heq, hf⟩ := create_population_char algo h o a oh nc m n ne dev acc
  rw [heq] at hpop
  have hfa := seqBuild_forall₂ hpop
  intro ag hag
  obtain ⟨⟨i, hi⟩, hget⟩ := List.mem_iff_get.mp hag
  have hin : i < (List.range n).length := by
    rw [hfa.length_eq]
    exact hi
  have hgot := hfa.get hin hi
  rw [List.get_range] at hgot
  obtain ⟨hp, _, hag'⟩ := buildAgent_ok hgot
  rw [← hget, hag']
  obtain ⟨_, hc, hobs, hact, hoh, hnc, _, hdev, hacc, _⟩ := hf i hp
  exact ⟨hc, hobs, hact, hnc, hdev, hacc, hoh⟩

/-- Witness for C7 (amended): a DDPG population of size 1. -/
theorem create_population_forwarding_witness :
    ("DDPG" ∈ recognizedAlgos
        ∧ create_population "DDPG" 0 0 true none hpDDPG 1 4 "cpu" none = .ok popDDPG1)
      ∧ ∀ ag ∈ popDDPG1, ag.ctor = ctorName "DDPG" ∧ ag.obs = 0 ∧ ag.act = 0
        ∧ ag.net_config = none ∧ ag.device = "cpu" ∧ ag.accelerator = none
        ∧ ag.one_hot
            = (if "DDPG" = "NeuralUCB" ∨ "DDPG" = "NeuralTS" then none else some true) :=
  ⟨⟨by decide, by rfl⟩,
    create_population_forwarding "DDPG" (by decide) 0 0 true none hpDDPG 1 4 "cpu" none
      popDDPG1 (by rfl)⟩

/-- C9: for the noise-driven continuous-control algorithms (DDPG, TD3,
MADDPG, MATD3) every constructed agent receives
`vect_noise_dim = num_envs`. -/
theorem vect_noise_dim_forwarded (algo : String)
    (h : algo = "DDPG" ∨ algo = "TD3" ∨ algo = "MADDPG" ∨ algo = "MATD3")
    (o a : Nat) (oh : Bool) (nc : Option Nat) (m : List (String × Int))
    (n ne : Nat) (dev : String) (acc : Option Nat) (pop : List AgentCall)
    (hpop : create_population algo o a oh nc m n ne dev acc = .ok pop) :
    ∀ ag ∈ pop, ag.vect_noise_dim = some ne := by
  have hrec : algo ∈ recognizedAlgos := by
    rcases h with rfl | rfl | rfl | rfl <;> decide
  obtain ⟨f, heq, hf⟩ := create_population_char algo hrec o a oh nc m n ne dev acc
  rw [heq] at hpop
  have hfa := seqBuild_forall₂ hpop
  intro ag hag
  obtain ⟨⟨i, hi⟩, hget⟩ := List.mem_iff_get.mp hag
  have hin : i < (List.range n).length := by
    rw [hfa.length_eq]
    exact hi
  have hgot := hfa.get hin hi
  rw [List.get_range] at hgot
  obtain ⟨hp, _, hag'⟩ := buildAgent_ok hgot
  rw [← hget, hag']
  have hv := (hf i hp).2.2.2.2.2.2.1
  rw [hv, if_pos h]

/-- Witness for C9: DDPG with `num_envs = 4`. -/
theorem vect_noise_dim_forwarded_witness :
    (("DDPG" = "DDPG" ∨ "DDPG" = "TD3" ∨ "DDPG" = "MADDPG" ∨ "DDPG" = "MATD3")
        ∧ create_population "DDPG" 0 0 true none hpDDPG 1 4 "cpu" none = .ok popDDPG1)
      ∧ ∀ ag ∈ popDDPG1, ag.vect_noise_dim = some 4 :=
  ⟨⟨by decide, by rfl⟩,
    vect_noise_dim_forwarded "DDPG" (by decide) 0 0 true none hpDDPG 1 4 "cpu" none
      popDDPG1 (by rfl)⟩

/-- C8: `get_env_defined_actions` returns the absent signal iff every
listed agent's entry is absent; otherwise the returned mapping has an entry
`(agent, value-or-absent-marker)` for every listed agent. -/
theorem get_env_defined_actions_spec (info : String → Option Int) (agents : List String) :
    (get_env_defined_actions info agents = none ↔ ∀ ag ∈ agents, info ag = none)
      ∧ ∀ mp, get_env_defined_actions info agents = some mp →
          ∀ ag ∈ agents, (ag, info ag) ∈ mp := by
  by_cases hall : (agents.map (fun agent => (agent, info agent))).all
      (fun p => p.2.isNone) = true
  · constructor
    · constructor
      · intro _ ag hag
        have hm := List.all_eq_true.mp hall (ag, info ag) (List.mem_map_of_mem _ hag)
        simpa [Option.isNone_iff_eq_none] using hm
      · intro _
        simp [get_env_defined_actions, hall]
    · intro mp hmp
      simp [get_env_defined_actions, hall] at hmp
  · constructor
    · constructor
      · intro hnone
        simp [get_env_defined_actions, hall] at hnone
      · intro hforall
        refine absurd (List.all_eq_true.mpr fun p hp => ?_) hall
        obtain ⟨ag, hag, rfl⟩ := List.mem_map.mp hp
        simp [hforall ag hag]
    · intro mp hmp ag hag
      have hmp' : agents.map (fun agent => (agent, info agent)) = mp := by
        simpa [get_env_defined_actions, hall] using hmp
      rw [← hmp']
      exact List.mem_map_of_mem _ hag

/-- Witness for C8: two agents, one with an env-defined action. -/
theorem get_env_defined_actions_spec_witness :
    (get_env_defined_actions (fun ag => if ag = "agent_0" then some 3 else none)
          ["agent_0", "agent_1"] = none
        ↔ ∀ ag ∈ ["agent_0", "agent_1"],
            (if ag = "agent_0" then some 3 else (none : Option Int)) = none)
      ∧ ∀ mp, get_env_defined_actions (fun ag => if ag = "agent_0" then some 3 else none)
            ["agent_0", "agent_1"] = some mp →
          ∀ ag ∈ ["agent_0", "agent_1"],
            (ag, if ag = "agent_0" then some 3 else (none : Option Int)) ∈ mp :=
  get_env_defined_actions_spec (fun ag => if ag = "agent_0" then some 3 else none)
    ["agent_0", "agent_1"]

/-- C10: an empty agent sequence yields the absent signal, not an empty
mapping. -/
theorem get_env_defined_actions_empty_agents (info : String → Option Int) :
    get_env_defined_actions info [] = none := rfl

end AgileRL
